import Mathlib

/-!
Verification development for the placeholder message controller of the
`openclaw` repository (`src/auto-reply/reply/placeholder.ts`).

The controller is embedded shallowly: the mutable closure state of
`createPlaceholderController` becomes the structure `CtrlState`, each public
operation (`start`, `onTool`, `cleanup`) becomes a pure function from state and
explicit oracle inputs (random index, transport outcomes, generator results) to
a new state together with the list of transport calls it issued and the list of
fire-and-forget refinement tasks it launched.  A refinement task is identified
by the message identifier captured at launch; its later resolution is the
separate function `resolveRefinement`, mirroring the `.then` handler in the
source.  JavaScript truthiness of strings (the empty string is falsy) is
modelled explicitly wherever the source tests a string with `&&` or `!`.
-/

/-- A JavaScript value, as far as the controller inspects tool arguments:
`typeof x === "string"` checks and truthiness checks. -/
inductive JSValue where
  | str (s : String)
  | num (n : Int)
  | boolean (b : Bool)
  | undef
deriving DecidableEq

/-- A `Record<string, unknown>` of tool arguments, as an association list. -/
abbrev Args := List (String × JSValue)

/-- `args?.[k]`: property lookup on an optional record, `undefined` when the
record is absent or the key missing. -/
def getArg (args : Option Args) (k : String) : JSValue :=
  match args with
  | none => JSValue.undef
  | some a =>
    match a.lookup k with
    | some v => v
    | none => JSValue.undef

/-- Truthiness of an optional string (`undefined` and `""` are falsy). -/
def truthyStr : Option String → Bool
  | none => false
  | some s => s != ""

/-- The condition `args?.message && typeof args.message === "string"` of
`onTool`, returning the message when it holds (source line 138). -/
def reactionMsg (args : Option Args) : Option String :=
  match getArg args "message" with
  | JSValue.str s => if s = "" then none else some s
  | _ => none

/-- `ToolDisplayConfig` from the source. -/
structure ToolDisplayConfig where
  emoji : Option String
  label : Option String
deriving DecidableEq

/-- `PlaceholderConfig` from the source.  The two optional generator callbacks
are modelled by their presence flags; the values they produce enter the model
as oracle inputs of `resolveRefinement`. -/
structure PlaceholderConfig where
  enabled : Bool
  messages : Option (List String)
  deleteOnResponse : Option Bool
  toolDisplay : String → Option ToolDisplayConfig
  hasGenerateReaction : Bool
  hasGenerateToolDescription : Bool

/-- `DEFAULT_MESSAGES` from the source. -/
def DEFAULT_MESSAGES : List String :=
  ["🤔 Thinking...", "💭 Processing...", "🧠 Working on it..."]

/-- `config.messages?.length ? config.messages : DEFAULT_MESSAGES`. -/
def messagesOf (cfg : PlaceholderConfig) : List String :=
  match cfg.messages with
  | some l => if l.length ≠ 0 then l else DEFAULT_MESSAGES
  | none => DEFAULT_MESSAGES

/-- `getRandomMessage`, with the random index as an oracle input:
`messages[idx] ?? messages[0] ?? DEFAULT_MESSAGES[0]`. -/
def getRandomMessage (cfg : PlaceholderConfig) (idx : Nat) : String :=
  (messagesOf cfg).getD idx ((messagesOf cfg).getD 0 "🤔 Thinking...")

/-- `getToolDisplay`: override with defaults `"🔧"` and the tool name. -/
def getToolDisplay (cfg : PlaceholderConfig) (toolName : String) : String × String :=
  match cfg.toolDisplay toolName with
  | some o => (o.emoji.getD "🔧", o.label.getD toolName)
  | none => ("🔧", toolName)

/-- The mutable closure state of `createPlaceholderController`. -/
structure CtrlState where
  placeholderMessageId : Option String
  active : Bool
  currentToolText : String
  currentDisplayText : String
deriving DecidableEq

/-- The initial closure state. -/
def initCtrl : CtrlState :=
  { placeholderMessageId := none, active := false, currentToolText := "", currentDisplayText := "" }

/-- `isActive()`. -/
def isActive (st : CtrlState) : Bool := st.active

/-- A transport call, with its outcome: `send` carries the returned message
identifier on success and `none` on rejection; `edit` and `del` carry a
success flag. -/
inductive TEvent where
  | send (text : String) (result : Option String)
  | edit (msgId : String) (text : String) (ok : Bool)
  | del (msgId : String) (ok : Bool)
deriving DecidableEq

/-- The shared tail of both `onTool` branches (source lines 139-146 and
151-158): set `currentToolText`, skip when the text equals
`currentDisplayText`, otherwise `await sender.edit`; on success update
`currentDisplayText` and launch the tasks in `launch`; on rejection the catch
leaves the display text unchanged and launches nothing. -/
def editStep (st : CtrlState) (mid t : String) (editOk : Bool) (launch : List String) :
    CtrlState × List TEvent × List String :=
  let st1 := { st with currentToolText := t }
  if t = st.currentDisplayText then (st1, [], [])
  else if editOk then
    ({ st1 with currentDisplayText := t }, [TEvent.edit mid t true], launch)
  else (st1, [TEvent.edit mid t false], [])

/-- `start(userMessage?, history?)` (source lines 89-130).  Oracle inputs:
`idx` the random index, `um` the user message, `sout` the outcome of
`sender.send` (`some mid` success, `none` rejection).  Returns the new state,
the transport calls issued, and the message identifiers captured by refinement
tasks launched (the `generateReaction` fire-and-forget). -/
def startFn (cfg : PlaceholderConfig) (st : CtrlState) (idx : Nat) (um : Option String)
    (sout : Option String) : CtrlState × List TEvent × List String :=
  if cfg.enabled = false then (st, [], [])
  else if st.active = true then (st, [], [])
  else
    let text := getRandomMessage cfg idx
    match sout with
    | none => (st, [TEvent.send text none], [])
    | some mid =>
      let st1 := { st with placeholderMessageId := some mid, active := true,
                           currentDisplayText := text }
      let launch := cfg.hasGenerateReaction && truthyStr um && (mid != "")
      (st1, [TEvent.send text (some mid)], if launch then [mid] else [])

/-- `onTool(toolName, args?)` (source lines 132-189).  Oracle input `editOk`
is the outcome of `sender.edit` when it is reached.  Third component: message
identifiers captured by launched `generateToolDescription` tasks. -/
def onToolFn (cfg : PlaceholderConfig) (st : CtrlState) (toolName : String)
    (args : Option Args) (editOk : Bool) : CtrlState × List TEvent × List String :=
  if cfg.enabled = false then (st, [], [])
  else
    match st.placeholderMessageId with
    | none => (st, [], [])
    | some mid =>
      if st.active = false ∨ mid = "" then (st, [], [])
      else
        let d := getToolDisplay cfg toolName
        let generic := editStep st mid (d.1 ++ " " ++ d.2 ++ "...") editOk
          (if cfg.hasGenerateToolDescription then [mid] else [])
        if toolName = "reaction" then
          match reactionMsg args with
          | some s => editStep st mid ("💭 " ++ s) editOk []
          | none => generic
        else generic

/-- `cleanup()` (source lines 191-208).  Oracle input `delOk` is the outcome
of `sender.delete` when it is reached. -/
def cleanupFn (cfg : PlaceholderConfig) (st : CtrlState) (delOk : Bool) :
    CtrlState × List TEvent :=
  match st.placeholderMessageId with
  | none => (st, [])
  | some mid =>
    if st.active = false ∨ mid = "" then (st, [])
    else
      let evs := if cfg.deleteOnResponse = some false then [] else [TEvent.del mid delOk]
      ({ st with placeholderMessageId := none, active := false, currentToolText := "" }, evs)

/-- Outcome of a fire-and-forget generator call: the promise rejected, or it
resolved with `undefined` or with a string. -/
inductive GenOutcome where
  | failed
  | value (s : Option String)
deriving DecidableEq

/-- The `.then`/`.catch` resolution handler of a refinement task launched by
`start` or `onTool` (source lines 107-125 and 166-184): `mid` is the message
identifier captured at launch, `gen` the generator outcome, `editOk` the
outcome of `sender.edit` when it is reached. -/
def resolveRefinement (st : CtrlState) (mid : String) (gen : GenOutcome) (editOk : Bool) :
    CtrlState × List TEvent :=
  match gen with
  | GenOutcome.failed => (st, [])
  | GenOutcome.value none => (st, [])
  | GenOutcome.value (some s) =>
    if s ≠ "" ∧ st.active = true ∧ st.placeholderMessageId = some mid ∧
        s ≠ st.currentDisplayText then
      if editOk then ({ st with currentDisplayText := s }, [TEvent.edit mid s true])
      else (st, [TEvent.edit mid s false])
    else (st, [])

/-- A whole-system state: the controller state, the set of still-unresolved
refinement tasks (by captured message identifier), and the accumulated trace
of transport calls. -/
structure Sys where
  ctrl : CtrlState
  pending : List String
  trace : List TEvent
deriving DecidableEq

/-- The system state at controller creation. -/
def initSys : Sys := { ctrl := initCtrl, pending := [], trace := [] }

/-- One schedulable event of the system: a public operation with its oracle
inputs, or the resolution of the `i`-th pending refinement task. -/
inductive StepInput where
  | start (idx : Nat) (um : Option String) (sout : Option String)
  | onTool (toolName : String) (args : Option Args) (editOk : Bool)
  | cleanup (delOk : Bool)
  | resolve (i : Nat) (gen : GenOutcome) (editOk : Bool)

/-- The system step function. -/
def step (cfg : PlaceholderConfig) (s : Sys) : StepInput → Sys
  | StepInput.start idx um sout =>
    let r := startFn cfg s.ctrl idx um sout
    { ctrl := r.1, pending := s.pending ++ r.2.2, trace := s.trace ++ r.2.1 }
  | StepInput.onTool n a eo =>
    let r := onToolFn cfg s.ctrl n a eo
    { ctrl := r.1, pending := s.pending ++ r.2.2, trace := s.trace ++ r.2.1 }
  | StepInput.cleanup d =>
    let r := cleanupFn cfg s.ctrl d
    { ctrl := r.1, pending := s.pending, trace := s.trace ++ r.2 }
  | StepInput.resolve i gen eo =>
    match s.pending[i]? with
    | none => s
    | some mid =>
      let r := resolveRefinement s.ctrl mid gen eo
      { ctrl := r.1, pending := s.pending.eraseIdx i, trace := s.trace ++ r.2 }

/-- An execution of the controller from creation, under a schedule of events. -/
def run (cfg : PlaceholderConfig) (inps : List StepInput) : Sys :=
  inps.foldl (step cfg) initSys

/-- The last text successfully written to the transport by the calls in a
trace, starting from `d`:  a successful `send` or `edit` writes its text. -/
def lastWrittenFrom (d : String) : List TEvent → String
  | [] => d
  | TEvent.send t (some _) :: r => lastWrittenFrom t r
  | TEvent.send _ none :: r => lastWrittenFrom d r
  | TEvent.edit _ t true :: r => lastWrittenFrom t r
  | TEvent.edit _ _ false :: r => lastWrittenFrom d r
  | TEvent.del _ _ :: r => lastWrittenFrom d r

/-- Duplicate-suppression check of a trace, starting from last-written text
`d`: every `edit` call's text differs from the text last successfully written
at the moment the call is issued. -/
def goodTrace (d : String) : List TEvent → Bool
  | [] => true
  | TEvent.send t (some _) :: r => goodTrace t r
  | TEvent.send _ none :: r => goodTrace d r
  | TEvent.edit _ t true :: r => decide (t ≠ d) && goodTrace t r
  | TEvent.edit _ t false :: r => decide (t ≠ d) && goodTrace d r
  | TEvent.del _ _ :: r => goodTrace d r

theorem lastWrittenFrom_append (a b : List TEvent) :
    ∀ d, lastWrittenFrom d (a ++ b) = lastWrittenFrom (lastWrittenFrom d a) b := by
  induction a with
  | nil => intro d; rfl
  | cons e r ih =>
    intro d
    cases e with
    | send t res => cases res <;> simp [lastWrittenFrom, ih]
    | edit m t ok => cases ok <;> simp [lastWrittenFrom, ih]
    | del m ok => simp [lastWrittenFrom, ih]

theorem goodTrace_append (a b : List TEvent) :
    ∀ d, goodTrace d (a ++ b) =
      (goodTrace d a && goodTrace (lastWrittenFrom d a) b) := by
  induction a with
  | nil => intro d; simp [goodTrace, lastWrittenFrom]
  | cons e r ih =>
    intro d
    cases e with
    | send t res => cases res <;> simp [lastWrittenFrom, goodTrace, ih, Bool.and_assoc]
    | edit m t ok => cases ok <;> simp [lastWrittenFrom, goodTrace, ih, Bool.and_assoc]
    | del m ok => simp [lastWrittenFrom, goodTrace, ih]

theorem editStep_trace (st : CtrlState) (mid t : String) (eo : Bool) (ln : List String) :
    (editStep st mid t eo ln).1.currentDisplayText =
      lastWrittenFrom st.currentDisplayText (editStep st mid t eo ln).2.1 ∧
    goodTrace st.currentDisplayText (editStep st mid t eo ln).2.1 = true := by
  unfold editStep
  by_cases h : t = st.currentDisplayText
  · simp [h, lastWrittenFrom, goodTrace]
  · cases eo <;> simp [h, lastWrittenFrom, goodTrace]

theorem startFn_trace (cfg : PlaceholderConfig) (st : CtrlState) (idx : Nat)
    (um : Option String) (sout : Option String) :
    (startFn cfg st idx um sout).1.currentDisplayText =
      lastWrittenFrom st.currentDisplayText (startFn cfg st idx um sout).2.1 ∧
    goodTrace st.currentDisplayText (startFn cfg st idx um sout).2.1 = true := by
  unfold startFn
  by_cases he : cfg.enabled = false
  · simp [he, lastWrittenFrom, goodTrace]
  · by_cases ha : st.active = true
    · simp [he, ha, lastWrittenFrom, goodTrace]
    · cases sout <;> simp [he, ha, lastWrittenFrom, goodTrace]

theorem onToolFn_trace (cfg : PlaceholderConfig) (st : CtrlState) (toolName : String)
    (args : Option Args) (eo : Bool) :
    (onToolFn cfg st toolName args eo).1.currentDisplayText =
      lastWrittenFrom st.currentDisplayText (onToolFn cfg st toolName args eo).2.1 ∧
    goodTrace st.currentDisplayText (onToolFn cfg st toolName args eo).2.1 = true := by
  unfold onToolFn
  by_cases he : cfg.enabled = false
  · simp [he, lastWrittenFrom, goodTrace]
  · cases hm : st.placeholderMessageId with
    | none => simp [he, hm, lastWrittenFrom, goodTrace]
    | some mid =>
      by_cases hi : st.active = false ∨ mid = ""
      · simp [he, hm, hi, lastWrittenFrom, goodTrace]
      · by_cases hr : toolName = "reaction"
        · cases hmsg : reactionMsg args with
          | none => simp [he, hm, hi, hr, hmsg, editStep_trace]
          | some s => simp [he, hm, hi, hr, hmsg, editStep_trace]
        · simp [he, hm, hi, hr, editStep_trace]

theorem cleanupFn_trace (cfg : PlaceholderConfig) (st : CtrlState) (d : Bool) :
    (cleanupFn cfg st d).1.currentDisplayText =
      lastWrittenFrom st.currentDisplayText (cleanupFn cfg st d).2 ∧
    goodTrace st.currentDisplayText (cleanupFn cfg st d).2 = true := by
  unfold cleanupFn
  cases hm : st.placeholderMessageId with
  | none => simp [lastWrittenFrom, goodTrace]
  | some mid =>
    by_cases hi : st.active = false ∨ mid = ""
    · simp [hi, lastWrittenFrom, goodTrace]
    · by_cases hd : cfg.deleteOnResponse = some false <;>
        simp [hi, hd, lastWrittenFrom, goodTrace]

theorem resolveRefinement_trace (st : CtrlState) (mid : String) (gen : GenOutcome) (eo : Bool) :
    (resolveRefinement st mid gen eo).1.currentDisplayText =
      lastWrittenFrom st.currentDisplayText (resolveRefinement st mid gen eo).2 ∧
    goodTrace st.currentDisplayText (resolveRefinement st mid gen eo).2 = true := by
  unfold resolveRefinement
  cases gen with
  | failed => simp [lastWrittenFrom, goodTrace]
  | value s =>
    cases s with
    | none => simp [lastWrittenFrom, goodTrace]
    | some t =>
      by_cases hg : t ≠ "" ∧ st.active = true ∧ st.placeholderMessageId = some mid ∧
          t ≠ st.currentDisplayText
      · cases eo <;> simp [hg, lastWrittenFrom, goodTrace, hg.2.2.2]
      · simp [hg, lastWrittenFrom, goodTrace]

/-- The display-tracking invariant of a system state: `currentDisplayText`
equals the last text successfully written to the transport, and every `edit`
ever issued differed from the then last-written text. -/
def SysInv (s : Sys) : Prop :=
  s.ctrl.currentDisplayText = lastWrittenFrom "" s.trace ∧
  goodTrace "" s.trace = true

theorem step_inv (cfg : PlaceholderConfig) (s : Sys) (inp : StepInput)
    (h : SysInv s) : SysInv (step cfg s inp) := by
  obtain ⟨h1, h2⟩ := h
  cases inp with
  | start idx um sout =>
    have := startFn_trace cfg s.ctrl idx um sout
    constructor
    · simp [step, lastWrittenFrom_append, ← h1, this.1]
    · simp [step, goodTrace_append, h2, ← h1, this.2]
  | onTool n a eo =>
    have := onToolFn_trace cfg s.ctrl n a eo
    constructor
    · simp [step, lastWrittenFrom_append, ← h1, this.1]
    · simp [step, goodTrace_append, h2, ← h1, this.2]
  | cleanup d =>
    have := cleanupFn_trace cfg s.ctrl d
    constructor
    · simp [step, lastWrittenFrom_append, ← h1, this.1]
    · simp [step, goodTrace_append, h2, ← h1, this.2]
  | resolve i gen eo =>
    cases hp : s.pending[i]? with
    | none => simp only [step, hp]; exact ⟨h1, h2⟩
    | some mid =>
      have := resolveRefinement_trace s.ctrl mid gen eo
      constructor
      · simp [step, hp, lastWrittenFrom_append, ← h1, this.1]
      · simp [step, hp, goodTrace_append, h2, ← h1, this.2]

theorem foldl_step_inv (cfg : PlaceholderConfig) (inps : List StepInput) :
    ∀ s : Sys, SysInv s → SysInv (inps.foldl (step cfg) s) := by
  induction inps with
  | nil => intro s h; exact h
  | cons i r ih => intro s h; exact ih _ (step_inv cfg s i h)

theorem run_inv (cfg : PlaceholderConfig) (inps : List StepInput) :
    SysInv (run cfg inps) := by
  have : SysInv initSys := by constructor <;> rfl
  exact foldl_step_inv cfg inps initSys this

theorem goodTrace_consec (tr : List TEvent) :
    ∀ d i m t m' t' ok, goodTrace d tr = true →
      tr[i]? = some (TEvent.edit m t true) →
      tr[i+1]? = some (TEvent.edit m' t' ok) → t' ≠ t := by
  induction tr with
  | nil => intro d i m t m' t' ok _ hi _; simp at hi
  | cons e r ih =>
    intro d i m t m' t' ok hg hi hi1
    cases i with
    | zero =>
      simp at hi
      subst hi
      have hgr : goodTrace t r = true := by
        simp [goodTrace, Bool.and_eq_true] at hg
        exact hg.2
      have hr0 : r[0]? = some (TEvent.edit m' t' ok) := by simpa using hi1
      cases r with
      | nil => simp at hr0
      | cons e2 r2 =>
        simp at hr0
        subst hr0
        cases ok <;> simp [goodTrace, Bool.and_eq_true] at hgr <;> exact hgr.1
    | succ j =>
      have hi' : r[j]? = some (TEvent.edit m t true) := by simpa using hi
      have hi1' : r[j + 1]? = some (TEvent.edit m' t' ok) := by simpa using hi1
      cases e with
      | send tx res =>
        cases res with
        | none => exact ih d j m t m' t' ok (by simpa [goodTrace] using hg) hi' hi1'
        | some x => exact ih tx j m t m' t' ok (by simpa [goodTrace] using hg) hi' hi1'
      | edit mm tt okk =>
        cases okk with
        | false =>
          have := (by simpa [goodTrace, Bool.and_eq_true] using hg :
            (tt ≠ d) ∧ goodTrace d r = true)
          exact ih d j m t m' t' ok this.2 hi' hi1'
        | true =>
          have := (by simpa [goodTrace, Bool.and_eq_true] using hg :
            (tt ≠ d) ∧ goodTrace tt r = true)
          exact ih tt j m t m' t' ok this.2 hi' hi1'
      | del mm okk => exact ih d j m t m' t' ok (by simpa [goodTrace] using hg) hi' hi1'

/-- A controller state whose active session, if any, has a registered
non-empty message identifier.  Every state reachable through a transport whose
`send` returns non-empty identifiers satisfies this (`run_wfState`), which is
what the spec's `Active` state denotes: the returned message identifier was
recorded. -/
def WfState (st : CtrlState) : Prop :=
  st.active = true → ∃ mid, st.placeholderMessageId = some mid ∧ mid ≠ ""

theorem editStep_ids (st : CtrlState) (mid t : String) (eo : Bool) (ln : List String) :
    (editStep st mid t eo ln).1.active = st.active ∧
    (editStep st mid t eo ln).1.placeholderMessageId = st.placeholderMessageId := by
  unfold editStep
  by_cases h : t = st.currentDisplayText
  · simp [h]
  · cases eo <;> simp [h]

theorem onToolFn_ids (cfg : PlaceholderConfig) (st : CtrlState) (n : String)
    (a : Option Args) (eo : Bool) :
    (onToolFn cfg st n a eo).1.active = st.active ∧
    (onToolFn cfg st n a eo).1.placeholderMessageId = st.placeholderMessageId := by
  unfold onToolFn
  by_cases he : cfg.enabled = false
  · simp [he]
  · cases hm : st.placeholderMessageId with
    | none => simp [he, hm]
    | some mid =>
      by_cases hi : st.active = false ∨ mid = ""
      · simp [he, hm, hi]
      · by_cases hr : n = "reaction"
        · cases hmsg : reactionMsg a with
          | none => simp [he, hm, hi, hr, hmsg, editStep_ids]
          | some s => simpa [he, hm, hi, hr, hmsg] using (editStep_ids st mid _ eo _)
        · simpa [he, hm, hi, hr] using (editStep_ids st mid _ eo _)

/-- Schedules whose `send` outcomes never return the empty string as a message
identifier. -/
def GoodSends : StepInput → Prop
  | StepInput.start _ _ (some mid) => mid ≠ ""
  | _ => True

theorem startFn_wf (cfg : PlaceholderConfig) (st : CtrlState) (idx : Nat)
    (um : Option String) (sout : Option String) (hw : WfState st)
    (hs : sout = some "" → False) : WfState (startFn cfg st idx um sout).1 := by
  unfold startFn
  by_cases he : cfg.enabled = false
  · simpa [he] using hw
  · by_cases ha : st.active = true
    · simpa [he, ha] using hw
    · cases sout with
      | none => simpa [he, ha] using hw
      | some mid =>
        intro _
        exact ⟨mid, by simp [he, ha], fun hmid => hs (by rw [hmid])⟩

theorem cleanupFn_wf (cfg : PlaceholderConfig) (st : CtrlState) (d : Bool)
    (hw : WfState st) : WfState (cleanupFn cfg st d).1 := by
  unfold cleanupFn
  cases hm : st.placeholderMessageId with
  | none => simpa [hm] using hw
  | some mid =>
    by_cases hi : st.active = false ∨ mid = ""
    · simpa [hi] using hw
    · intro h
      simp [hi] at h

theorem resolveRefinement_wf (st : CtrlState) (mid : String) (gen : GenOutcome) (eo : Bool)
    (hw : WfState st) : WfState (resolveRefinement st mid gen eo).1 := by
  unfold resolveRefinement
  cases gen with
  | failed => exact hw
  | value s =>
    cases s with
    | none => exact hw
    | some t =>
      by_cases hgc : t ≠ "" ∧ st.active = true ∧ st.placeholderMessageId = some mid ∧
          t ≠ st.currentDisplayText
      · have hmm : st.placeholderMessageId = some mid := hgc.2.2.1
        have hn : mid ≠ "" := by
          obtain ⟨mid', hm', hn'⟩ := hw hgc.2.1
          rw [hmm] at hm'
          have heq : mid = mid' := Option.some.inj hm'
          subst heq
          exact hn'
        cases eo <;> exact fun _ => ⟨mid, by simp [hgc, hmm], hn⟩
      · simpa [hgc] using hw

theorem step_wf (cfg : PlaceholderConfig) (s : Sys) (inp : StepInput)
    (hw : WfState s.ctrl) (hg : GoodSends inp) : WfState (step cfg s inp).ctrl := by
  cases inp with
  | start idx um sout =>
    refine startFn_wf cfg s.ctrl idx um sout hw ?_
    intro h
    subst h
    exact hg rfl
  | onTool n a eo =>
    intro h
    have := onToolFn_ids cfg s.ctrl n a eo
    simp only [step] at h ⊢
    rw [this.2]
    exact hw (by rw [← this.1]; exact h)
  | cleanup d => exact cleanupFn_wf cfg s.ctrl d hw
  | resolve i gen eo =>
    cases hp : s.pending[i]? with
    | none => simpa [step, hp] using hw
    | some mid =>
      have := resolveRefinement_wf s.ctrl mid gen eo hw
      simpa [step, hp] using this

/-- Every execution whose `send` outcomes are non-empty identifiers keeps the
controller state well formed: whenever the session is active, a non-empty
message identifier is registered. -/
theorem run_wfState (cfg : PlaceholderConfig) (inps : List StepInput)
    (h : ∀ inp ∈ inps, GoodSends inp) : WfState (run cfg inps).ctrl := by
  suffices hgen : ∀ s : Sys, WfState s.ctrl → WfState (inps.foldl (step cfg) s).ctrl by
    exact hgen initSys (fun h => by simp [initSys, initCtrl] at h)
  induction inps with
  | nil => intro s hs; exact hs
  | cons i r ih =>
    intro s hs
    exact ih (fun inp hm => h inp (List.mem_cons_of_mem i hm)) _
      (step_wf cfg s i hs (h i (List.mem_cons_self i r)))

/-- An `await` of a `void`-returning transport call in the exception-explicit
model: a rejection throws, carrying the closure state as mutated so far. -/
def awaitVoid (st : CtrlState) (ok : Bool) : Except CtrlState CtrlState :=
  if ok then Except.ok st else Except.error st

/-- `await sender.send(text)` in the exception-explicit model. -/
def sendAwait (st : CtrlState) (sout : Option String) :
    Except CtrlState (CtrlState × String) :=
  match sout with
  | some mid => Except.ok (st, mid)
  | none => Except.error st

/-- The `try` body shared by both `onTool` branches in the exception-explicit
model: an edit rejection propagates as a thrown exception. -/
def editBodyE (st : CtrlState) (mid t : String) (eo : Bool) : Except CtrlState CtrlState :=
  let st1 := { st with currentToolText := t }
  if t = st.currentDisplayText then Except.ok st1
  else
    match awaitVoid st1 eo with
    | Except.ok st2 => Except.ok { st2 with currentDisplayText := t }
    | Except.error stE => Except.error stE

/-- Exception-explicit `start`: the `try` body may throw at the awaited
`sender.send`; the `catch` of source lines 127-129 turns any throw into a
normal return (the log call is not modelled). -/
def startE (cfg : PlaceholderConfig) (st : CtrlState) (idx : Nat) (um : Option String)
    (sout : Option String) : Except CtrlState CtrlState :=
  if cfg.enabled = false then Except.ok st
  else if st.active = true then Except.ok st
  else
    let text := getRandomMessage cfg idx
    match sendAwait st sout with
    | Except.error stE => Except.ok stE
    | Except.ok (st1, mid) =>
      Except.ok { st1 with placeholderMessageId := some mid, active := true,
                           currentDisplayText := text }

/-- Exception-explicit `onTool`: the `try` body may throw at the awaited
`sender.edit`; the `catch` of source lines 186-188 turns any throw into a
normal return. -/
def onToolE (cfg : PlaceholderConfig) (st : CtrlState) (toolName : String)
    (args : Option Args) (eo : Bool) : Except CtrlState CtrlState :=
  if cfg.enabled = false then Except.ok st
  else
    match st.placeholderMessageId with
    | none => Except.ok st
    | some mid =>
      if st.active = false ∨ mid = "" then Except.ok st
      else
        let d := getToolDisplay cfg toolName
        let body :=
          if toolName = "reaction" then
            match reactionMsg args with
            | some s => editBodyE st mid ("💭 " ++ s) eo
            | none => editBodyE st mid (d.1 ++ " " ++ d.2 ++ "...") eo
          else editBodyE st mid (d.1 ++ " " ++ d.2 ++ "...") eo
        match body with
        | Except.ok st2 => Except.ok st2
        | Except.error stE => Except.ok stE

/-- Exception-explicit `cleanup`: only the awaited `sender.delete` sits in a
`try`/`catch` (source lines 197-202); the state reset that follows cannot
throw. -/
def cleanupE (cfg : PlaceholderConfig) (st : CtrlState) (d : Bool) :
    Except CtrlState CtrlState :=
  match st.placeholderMessageId with
  | none => Except.ok st
  | some mid =>
    if st.active = false ∨ mid = "" then Except.ok st
    else
      let st1 :=
        if cfg.deleteOnResponse = some false then st
        else
          match awaitVoid st d with
          | Except.ok s2 => s2
          | Except.error s2 => s2
      Except.ok { st1 with placeholderMessageId := none, active := false, currentToolText := "" }

/-- Exception-explicit resolution handler of a refinement task: a generator
rejection is absorbed by the `.catch` of the fire-and-forget chain, an edit
rejection by the inner `try`/`catch` (source lines 114-120 and 173-179). -/
def resolveE (st : CtrlState) (mid : String) (gen : GenOutcome) (eo : Bool) :
    Except CtrlState CtrlState :=
  match gen with
  | GenOutcome.failed => Except.ok st
  | GenOutcome.value none => Except.ok st
  | GenOutcome.value (some s) =>
    if s ≠ "" ∧ st.active = true ∧ st.placeholderMessageId = some mid ∧
        s ≠ st.currentDisplayText then
      match awaitVoid st eo with
      | Except.ok st1 => Except.ok { st1 with currentDisplayText := s }
      | Except.error stE => Except.ok stE
    else Except.ok st

theorem editBodyE_catch (st : CtrlState) (mid t : String) (eo : Bool) (ln : List String) :
    ((match editBodyE st mid t eo with
      | Except.ok st2 => Except.ok st2
      | Except.error stE => Except.ok stE) : Except CtrlState CtrlState) =
      Except.ok (editStep st mid t eo ln).1 := by
  unfold editBodyE editStep awaitVoid
  by_cases h : t = st.currentDisplayText
  · simp [h]
  · cases eo <;> simp [h]

theorem startE_ok (cfg : PlaceholderConfig) (st : CtrlState) (idx : Nat)
    (um : Option String) (sout : Option String) :
    startE cfg st idx um sout = Except.ok (startFn cfg st idx um sout).1 := by
  unfold startE startFn sendAwait
  by_cases he : cfg.enabled = false
  · simp [he]
  · by_cases ha : st.active = true
    · simp [he, ha]
    · cases sout <;> simp [he, ha]

theorem onToolE_ok (cfg : PlaceholderConfig) (st : CtrlState) (toolName : String)
    (args : Option Args) (eo : Bool) :
    onToolE cfg st toolName args eo = Except.ok (onToolFn cfg st toolName args eo).1 := by
  unfold onToolE onToolFn
  by_cases he : cfg.enabled = false
  · simp [he]
  · cases hm : st.placeholderMessageId with
    | none => simp [he, hm]
    | some mid =>
      by_cases hi : st.active = false ∨ mid = ""
      · simp [he, hm, hi]
      · by_cases hr : toolName = "reaction"
        · cases hmsg : reactionMsg args with
          | none => simpa [he, hm, hi, hr, hmsg] using editBodyE_catch st mid _ eo _
          | some s => simpa [he, hm, hi, hr, hmsg] using editBodyE_catch st mid _ eo _
        · simpa [he, hm, hi, hr] using editBodyE_catch st mid _ eo _

theorem cleanupE_ok (cfg : PlaceholderConfig) (st : CtrlState) (d : Bool) :
    cleanupE cfg st d = Except.ok (cleanupFn cfg st d).1 := by
  unfold cleanupE cleanupFn awaitVoid
  cases hm : st.placeholderMessageId with
  | none => simp
  | some mid =>
    by_cases hi : st.active = false ∨ mid = ""
    · simp [hi]
    · by_cases hd : cfg.deleteOnResponse = some false
      · simp [hi, hd]
      · cases d <;> simp [hi, hd]

theorem resolveE_ok (st : CtrlState) (mid : String) (gen : GenOutcome) (eo : Bool) :
    resolveE st mid gen eo = Except.ok (resolveRefinement st mid gen eo).1 := by
  unfold resolveE resolveRefinement awaitVoid
  cases gen with
  | failed => simp
  | value s =>
    cases s with
    | none => simp
    | some t =>
      by_cases hgc : t ≠ "" ∧ st.active = true ∧ st.placeholderMessageId = some mid ∧
          t ≠ st.currentDisplayText
      · cases eo <;> simp [hgc]
      · simp [hgc]

/-- Modelled from the spec: the conversation-keyed registry of placeholder
sessions (spec sections 3, 4.1 and 9).  The registry-based variant of the
controller is not among the provided source files -- the spec notes two
near-duplicate controller versions and only the simpler one is in the sources
-- so the registry is modelled from the spec's words: a keyed lookup with
last-writer-wins semantics, mapping a conversation key to the message
identifier of the registered placeholder session. -/
abbrev Registry := List (String × String)

/-- Lookup of the session registered under a conversation key. -/
def registryFind (reg : Registry) (k : String) : Option String :=
  match reg with
  | [] => none
  | (k', v) :: r => if k' = k then some v else registryFind r k

/-- Register a session under a conversation key (last writer wins). -/
def registrySet (reg : Registry) (k v : String) : Registry :=
  (k, v) :: reg.filter (fun p => p.1 != k)

/-- Remove the session registered under a conversation key. -/
def registryRemove (reg : Registry) (k : String) : Registry :=
  reg.filter (fun p => p.1 != k)

/-- Modelled from the spec: `start()` of the registry-based controller variant
(spec section 4.1), which is not among the provided source files.  Before
proceeding, if the conversation-scoped registry holds a stale session for the
conversation key, that stale message is deleted best-effort (outcome
`staleDelOk` ignored); then the new placeholder is sent, and on success the
new session is registered under the key. -/
def startWithRegistry (cfg : PlaceholderConfig) (reg : Registry) (key : String)
    (st : CtrlState) (idx : Nat) (staleDelOk : Bool) (sout : Option String) :
    (Registry × CtrlState) × List TEvent :=
  if cfg.enabled = false then ((reg, st), [])
  else if st.active = true then ((reg, st), [])
  else
    let staleEvs :=
      match registryFind reg key with
      | some stale => [TEvent.del stale staleDelOk]
      | none => []
    let text := getRandomMessage cfg idx
    match sout with
    | none => ((reg, st), staleEvs ++ [TEvent.send text none])
    | some mid =>
      ((registrySet reg key mid,
        { st with placeholderMessageId := some mid, active := true,
                  currentDisplayText := text }),
       staleEvs ++ [TEvent.send text (some mid)])

/-- Modelled from the spec: `cleanup()` of the registry-based controller
variant removes the session from the conversation registry (spec section 4.1). -/
def cleanupWithRegistry (cfg : PlaceholderConfig) (reg : Registry) (key : String)
    (st : CtrlState) (delOk : Bool) : (Registry × CtrlState) × List TEvent :=
  ((registryRemove reg key, (cleanupFn cfg st delOk).1), (cleanupFn cfg st delOk).2)

/-- Modelled from the spec: truncation of text extracted from tool arguments
(spec section 4.1); the dispatch-bearing controller variant is not among the
provided source files. -/
def truncateTo (n : Nat) (s : String) : String :=
  if s.length ≤ n then s else s.take n ++ "…"

/-- Strip a literal prefix from a character list, `none` when it does not
start with it. -/
def dropPrefixChars : List Char → List Char → Option (List Char)
  | [], cs => some cs
  | _ :: _, [] => none
  | p :: ps, c :: cs => if c = p then dropPrefixChars ps cs else none

/-- The characters before the first slash. -/
def hostChars : List Char → List Char
  | [] => []
  | c :: cs => if c = '/' then [] else c :: hostChars cs

/-- Modelled from the spec: the host part of a URL, the text between the
scheme prefix and the first following slash. -/
def urlHost (u : String) : String :=
  let rest :=
    match dropPrefixChars "https://".data u.data with
    | some r => r
    | none =>
      match dropPrefixChars "http://".data u.data with
      | some r => r
      | none => u.data
  String.mk (hostChars rest)

/-- A string-typed tool argument, `none` when absent or of another type. -/
def strArgOf (args : Option Args) (k : String) : Option String :=
  match getArg args k with
  | JSValue.str s => some s
  | _ => none

/-- Modelled from the spec: the natural-language description lookup table
keyed by known tool names (spec section 4.1: "extracting and truncating a
filename, command, query, or URL host as appropriate per tool", with the
display shape of the spec's section 1 example); the dispatch-bearing
controller variant is not among the provided source files. -/
def naturalToolDescription (toolName : String) (args : Option Args) : Option String :=
  match toolName with
  | "read" => (strArgOf args "path").map (fun p => "● Read(" ++ truncateTo 40 p ++ ")")
  | "write" => (strArgOf args "path").map (fun p => "● Write(" ++ truncateTo 40 p ++ ")")
  | "exec" => (strArgOf args "command").map (fun c => "● Run(" ++ truncateTo 40 c ++ ")")
  | "search" => (strArgOf args "query").map (fun q => "● Search(" ++ truncateTo 40 q ++ ")")
  | "fetch" => (strArgOf args "url").map (fun u => "● Fetch(" ++ urlHost u ++ ")")
  | _ => none

/-- Modelled from the spec: the text the dispatch-bearing `onTool` variant
displays -- the natural description when the lookup table has a rule for the
tool, otherwise the generic format from overrides or the tool name. -/
def richOnToolText (cfg : PlaceholderConfig) (toolName : String) (args : Option Args) : String :=
  match naturalToolDescription toolName args with
  | some d => d
  | none => (getToolDisplay cfg toolName).1 ++ " " ++ (getToolDisplay cfg toolName).2 ++ "..."

/-- A minimal enabled configuration: no custom messages, no overrides, no
generators. -/
def cfgPlain : PlaceholderConfig :=
  { enabled := true, messages := none, deleteOnResponse := none,
    toolDisplay := fun _ => none, hasGenerateReaction := false,
    hasGenerateToolDescription := false }

/-- An enabled configuration with both generator callbacks present. -/
def cfgGen : PlaceholderConfig :=
  { enabled := true, messages := none, deleteOnResponse := none,
    toolDisplay := fun _ => none, hasGenerateReaction := true,
    hasGenerateToolDescription := true }

/-- An enabled configuration with a `toolDisplay` override for `"foo"`. -/
def cfgFoo : PlaceholderConfig :=
  { enabled := true, messages := none, deleteOnResponse := none,
    toolDisplay := fun n =>
      if n = "foo" then some { emoji := some "🛠", label := some "Working" } else none,
    hasGenerateReaction := false, hasGenerateToolDescription := false }

/-- An active controller state displaying the first default message. -/
def stActive : CtrlState :=
  { placeholderMessageId := some "m1", active := true, currentToolText := "",
    currentDisplayText := "🤔 Thinking..." }

/-- Claim C1: for every `start()` of the registry-based controller variant
(modelled from the spec; that variant is not among the provided source files)
with the feature enabled and no active session, if a stale prior placeholder
message is still registered under the conversation key, `start()` issues the
transport delete of that stale message before issuing the send of the new
placeholder. -/
theorem C1_start_deletes_stale_before_send (cfg : PlaceholderConfig) (reg : Registry)
    (key : String) (st : CtrlState) (idx : Nat) (dOk : Bool) (sout : Option String)
    (stale : String) (he : cfg.enabled = true) (ha : st.active = false)
    (hs : registryFind reg key = some stale) :
    (startWithRegistry cfg reg key st idx dOk sout).2 =
      [TEvent.del stale dOk, TEvent.send (getRandomMessage cfg idx) sout] := by
  unfold startWithRegistry
  cases sout <;> simp [he, ha, hs]

/-- Claim C1 witness: a concrete stale registration is deleted before the new
placeholder is sent. -/
theorem C1_witness :
    (startWithRegistry cfgPlain [("chat1", "stale7")] "chat1" initCtrl 0 true
        (some "m2")).2 =
      [TEvent.del "stale7" true, TEvent.send (getRandomMessage cfgPlain 0) (some "m2")] :=
  C1_start_deletes_stale_before_send cfgPlain [("chat1", "stale7")] "chat1" initCtrl 0 true
    (some "m2") "stale7" rfl rfl (by decide)

/-- Claim C2: a resolving refinement task issues a transport edit (and only
with the refined text) only if the session is still active, the message
identifier still equals the one captured at launch, and the text differs from
the displayed text, and the displayed text changes only on a successful edit;
`cleanup()` of a well-formed state leaves `isActive()` false; and a
refinement resolving in any inactive state -- in particular right after
`cleanup()` -- issues no transport call and changes nothing. -/
theorem C2_refinement_race_guard :
    (∀ st mid gen eo, (resolveRefinement st mid gen eo).2 ≠ [] →
      st.active = true ∧ ∃ s, gen = GenOutcome.value (some s) ∧ s ≠ "" ∧
        st.placeholderMessageId = some mid ∧ s ≠ st.currentDisplayText ∧
        (resolveRefinement st mid gen eo).2 = [TEvent.edit mid s eo] ∧
        (resolveRefinement st mid gen eo).1.currentDisplayText =
          (if eo then s else st.currentDisplayText)) ∧
    (∀ cfg st d, WfState st → isActive (cleanupFn cfg st d).1 = false) ∧
    (∀ st mid gen eo, st.active = false → resolveRefinement st mid gen eo = (st, [])) := by
  refine ⟨?_, ?_, ?_⟩
  · intro st mid gen eo h
    cases gen with
    | failed => simp [resolveRefinement] at h
    | value s =>
      cases s with
      | none => simp [resolveRefinement] at h
      | some t =>
        by_cases hgc : t ≠ "" ∧ st.active = true ∧ st.placeholderMessageId = some mid ∧
            t ≠ st.currentDisplayText
        · refine ⟨hgc.2.1, t, rfl, hgc.1, hgc.2.2.1, hgc.2.2.2, ?_, ?_⟩
          · cases eo <;> simp [resolveRefinement, hgc]
          · cases eo <;> simp [resolveRefinement, hgc]
        · simp [resolveRefinement, hgc] at h
  · intro cfg st d hw
    by_cases ha : st.active = true
    · obtain ⟨mid, hm, hne⟩ := hw ha
      have hcond : ¬(st.active = false ∨ mid = "") := by
        rintro (h1 | h2)
        · simp [ha] at h1
        · exact hne h2
      simp [cleanupFn, hm, hcond, isActive]
    · have ha' : st.active = false := by
        cases hab : st.active
        · rfl
        · exact absurd hab ha
      cases hm : st.placeholderMessageId with
      | none => simp [cleanupFn, hm, isActive, ha']
      | some mid => simp [cleanupFn, hm, ha', isActive]
  · intro st mid gen eo ha
    cases gen with
    | failed => rfl
    | value s =>
      cases s with
      | none => rfl
      | some t => simp [resolveRefinement, ha]

/-- Claim C2 witness: cleaning up a concrete active session deactivates it,
and a refinement resolving in the inactive state does nothing. -/
theorem C2_witness :
    isActive (cleanupFn cfgPlain stActive true).1 = false ∧
    resolveRefinement initCtrl "m1" (GenOutcome.value (some "hi")) true = (initCtrl, []) :=
  ⟨C2_refinement_race_guard.2.1 cfgPlain stActive true (fun _ => ⟨"m1", rfl, by decide⟩),
   C2_refinement_race_guard.2.2 initCtrl "m1" (GenOutcome.value (some "hi")) true rfl⟩

/-- Claim C3: no exception escapes the public operations or the refinement
resolution handler -- in the exception-explicit model, where every transport
rejection throws and the source's `try`/`catch` structure is reproduced, each
operation always returns normally, with the state of the total model. -/
theorem C3_no_exception_escapes :
    (∀ cfg st idx um sout,
      startE cfg st idx um sout = Except.ok (startFn cfg st idx um sout).1) ∧
    (∀ cfg st n a eo, onToolE cfg st n a eo = Except.ok (onToolFn cfg st n a eo).1) ∧
    (∀ cfg st d, cleanupE cfg st d = Except.ok (cleanupFn cfg st d).1) ∧
    (∀ st mid gen eo, resolveE st mid gen eo = Except.ok (resolveRefinement st mid gen eo).1) :=
  ⟨startE_ok, onToolE_ok, cleanupE_ok, resolveE_ok⟩

/-- Claim C4 counterexample: after a successful `start`, an `onTool("foo")`
whose transport edit is rejected leaves the displayed text unchanged, so an
identical `onTool("foo")` immediately afterwards issues a second consecutive
`edit` with identical text -- refuting "edit is never called twice in a row
with identical text" as universally stated. -/
theorem C4_counterexample :
    (run cfgPlain [StepInput.start 0 none (some "m1"), StepInput.onTool "foo" none false,
      StepInput.onTool "foo" none false]).trace =
      [TEvent.send "🤔 Thinking..." (some "m1"),
       TEvent.edit "m1" "🔧 foo..." false, TEvent.edit "m1" "🔧 foo..." false] := by
  rfl

/-- Claim C4 (amended): in every execution the tracked displayed text equals
the last text successfully written to the transport, every issued `edit`
carries text different from the text last successfully written at that
moment, and consequently an `edit` is never immediately followed by another
`edit` with identical text when the first of the two succeeded (only a
rejected edit may be followed by an identical retry). -/
theorem C4_display_invariant (cfg : PlaceholderConfig) (inps : List StepInput) :
    (run cfg inps).ctrl.currentDisplayText = lastWrittenFrom "" (run cfg inps).trace ∧
    goodTrace "" (run cfg inps).trace = true ∧
    (∀ i m t m' t' ok, (run cfg inps).trace[i]? = some (TEvent.edit m t true) →
      (run cfg inps).trace[i + 1]? = some (TEvent.edit m' t' ok) → t' ≠ t) :=
  ⟨(run_inv cfg inps).1, (run_inv cfg inps).2,
   fun i m t m' t' ok h1 h2 =>
     goodTrace_consec (run cfg inps).trace "" i m t m' t' ok (run_inv cfg inps).2 h1 h2⟩

/-- Claim C4 witness: in a concrete run with two successful consecutive
edits, the second text differs from the first. -/
theorem C4_witness :
    (run cfgPlain [StepInput.start 0 none (some "m1"), StepInput.onTool "a" none true,
      StepInput.onTool "b" none true]).trace[1]? =
        some (TEvent.edit "m1" "🔧 a..." true) ∧
    (run cfgPlain [StepInput.start 0 none (some "m1"), StepInput.onTool "a" none true,
      StepInput.onTool "b" none true]).trace[2]? =
        some (TEvent.edit "m1" "🔧 b..." true) ∧
    "🔧 b..." ≠ "🔧 a..." :=
  ⟨rfl, rfl,
   (C4_display_invariant cfgPlain [StepInput.start 0 none (some "m1"),
      StepInput.onTool "a" none true, StepInput.onTool "b" none true]).2.2 1 "m1" "🔧 a..."
      "m1" "🔧 b..." true rfl rfl⟩

/-- Claim C5: `start()` issues no transport call and changes nothing while
the feature is disabled or the session is already active, and when the send
is rejected the controller state is unchanged -- in particular it remains
inactive. -/
theorem C5_start_noop_and_failure (cfg : PlaceholderConfig) (st : CtrlState) (idx : Nat)
    (um : Option String) (sout : Option String) :
    (cfg.enabled = false → startFn cfg st idx um sout = (st, [], [])) ∧
    (st.active = true → startFn cfg st idx um sout = (st, [], [])) ∧
    (startFn cfg st idx um none).1 = st := by
  refine ⟨fun he => by simp [startFn, he], fun ha => ?_, ?_⟩
  · by_cases he : cfg.enabled = false
    · simp [startFn, he]
    · simp [startFn, he, ha]
  · by_cases he : cfg.enabled = false
    · simp [startFn, he]
    · by_cases ha : st.active = true <;> simp [startFn, he, ha]

/-- Claim C5 witness: a second `start()` on an active session is a complete
no-op. -/
theorem C5_witness :
    startFn cfgPlain stActive 0 none (some "m2") = (stActive, [], []) :=
  (C5_start_noop_and_failure cfgPlain stActive 0 none (some "m2")).2.1 rfl

/-- Claim C6: `cleanup()` is a no-op when the session is inactive; on an
active session (with its registered non-empty message identifier) it issues
the transport delete exactly when `deleteOnResponse` is not `false`, and --
whatever the delete outcome -- resets the session: message identifier
cleared, active flag false, tool text cleared. -/
theorem C6_cleanup_reset (cfg : PlaceholderConfig) (st : CtrlState) (d : Bool) (mid : String) :
    (st.active = false → cleanupFn cfg st d = (st, [])) ∧
    (st.active = true → st.placeholderMessageId = some mid → mid ≠ "" →
      cleanupFn cfg st d =
        ({ st with placeholderMessageId := none, active := false, currentToolText := "" },
         if cfg.deleteOnResponse = some false then [] else [TEvent.del mid d])) := by
  constructor
  · intro ha
    cases hm : st.placeholderMessageId with
    | none => simp [cleanupFn, hm]
    | some m => simp [cleanupFn, hm, ha]
  · intro ha hm hne
    have hcond : ¬(st.active = false ∨ mid = "") := by
      rintro (h1 | h2)
      · simp [ha] at h1
      · exact hne h2
    simp [cleanupFn, hm, hcond]

/-- Claim C6 witness: cleanup of an inactive controller does nothing; cleanup
of a concrete active session with a rejected delete still issues the delete
and resets the session. -/
theorem C6_witness :
    cleanupFn cfgPlain initCtrl true = (initCtrl, []) ∧
    cleanupFn cfgPlain stActive false =
      ({ stActive with placeholderMessageId := none, active := false, currentToolText := "" },
       [TEvent.del "m1" false]) :=
  ⟨(C6_cleanup_reset cfgPlain initCtrl true "m1").1 rfl,
   by
    have := (C6_cleanup_reset cfgPlain stActive false "m1").2 rfl rfl (by decide)
    simpa using this⟩

/-- Claim C7 counterexample: `onTool("reaction", {message: ""})` carries a
string-valued message argument, yet string truthiness makes the code take the
generic path -- the placeholder is edited to "🔧 reaction..." rather than
"💭 " followed by the message, and a tool-description generator task IS
launched -- refuting the claim for the empty string. -/
theorem C7_counterexample :
    onToolFn cfgGen stActive "reaction" (some [("message", JSValue.str "")]) true =
      ({ stActive with currentToolText := "🔧 reaction...",
                       currentDisplayText := "🔧 reaction..." },
       [TEvent.edit "m1" "🔧 reaction..." true], ["m1"]) := by
  rfl

/-- Claim C7 (amended): for every active session, `onTool("reaction", args)`
with a non-empty string-valued message argument sets the tool text to "💭 "
followed by the message verbatim, launches no generator task, and issues
exactly one edit with exactly that text unless it is already displayed; on a
successful edit that text becomes the displayed text. -/
theorem C7_reaction_verbatim (cfg : PlaceholderConfig) (st : CtrlState) (args : Option Args)
    (eo : Bool) (mid s : String) (he : cfg.enabled = true) (ha : st.active = true)
    (hm : st.placeholderMessageId = some mid) (hne : mid ≠ "")
    (hmsg : getArg args "message" = JSValue.str s) (hs : s ≠ "") :
    onToolFn cfg st "reaction" args eo =
      (if "💭 " ++ s = st.currentDisplayText then
        ({ st with currentToolText := "💭 " ++ s }, [], [])
      else if eo then
        ({ st with currentToolText := "💭 " ++ s, currentDisplayText := "💭 " ++ s },
         [TEvent.edit mid ("💭 " ++ s) true], [])
      else
        ({ st with currentToolText := "💭 " ++ s },
         [TEvent.edit mid ("💭 " ++ s) false], [])) := by
  have hr : reactionMsg args = some s := by simp [reactionMsg, hmsg, hs]
  have hcond : ¬(st.active = false ∨ mid = "") := by
    rintro (h1 | h2)
    · simp [ha] at h1
    · exact hne h2
  simp [onToolFn, hm, hcond, hr, editStep, he]

/-- Claim C7 witness: the spec's own example, on a fresh active session --
`onTool("reaction", {message: "查一下"})` edits the placeholder to
"💭 查一下" and launches no generator task even though one is configured. -/
theorem C7_witness :
    onToolFn cfgGen stActive "reaction" (some [("message", JSValue.str "查一下")]) true =
      ({ stActive with currentToolText := "💭 查一下", currentDisplayText := "💭 查一下" },
       [TEvent.edit "m1" "💭 查一下" true], []) := by
  rw [C7_reaction_verbatim cfgGen stActive (some [("message", JSValue.str "查一下")]) true
    "m1" "查一下" rfl rfl rfl (by decide) rfl (by decide)]
  rfl

/-- Claim C8: for an active session and a tool name other than "reaction",
`onTool` applies the generic format: the candidate text is
"{emoji} {label}..." with emoji and label from the `toolDisplay` override for
that name, defaulting to "🔧" and the tool name itself; in particular, with
the override foo -> {🛠, Working}, `onTool("foo", {})` edits the placeholder
to "🛠 Working...". -/
theorem C8_generic_format (cfg : PlaceholderConfig) (st : CtrlState) (name : String)
    (args : Option Args) (eo : Bool) (mid : String)
    (he : cfg.enabled = true) (ha : st.active = true)
    (hm : st.placeholderMessageId = some mid) (hne : mid ≠ "") (hr : name ≠ "reaction") :
    (∀ n, cfg.toolDisplay n = none → getToolDisplay cfg n = ("🔧", n)) ∧
    onToolFn cfg st name args eo =
      editStep st mid
        ((getToolDisplay cfg name).1 ++ " " ++ (getToolDisplay cfg name).2 ++ "...") eo
        (if cfg.hasGenerateToolDescription then [mid] else []) ∧
    onToolFn cfgFoo stActive "foo" (some []) true =
      ({ stActive with currentToolText := "🛠 Working...",
                       currentDisplayText := "🛠 Working..." },
       [TEvent.edit "m1" "🛠 Working..." true], []) := by
  refine ⟨fun n hn => by simp [getToolDisplay, hn], ?_, by rfl⟩
  have hcond : ¬(st.active = false ∨ mid = "") := by
    rintro (h1 | h2)
    · simp [ha] at h1
    · exact hne h2
  simp [onToolFn, he, hm, hcond, hr]

/-- Claim C8 witness: the override instance, obtained from the general
statement at a concrete configuration and session. -/
theorem C8_witness :
    onToolFn cfgFoo stActive "foo" (some []) true =
      editStep stActive "m1"
        ((getToolDisplay cfgFoo "foo").1 ++ " " ++ (getToolDisplay cfgFoo "foo").2 ++ "...")
        true (if cfgFoo.hasGenerateToolDescription then ["m1"] else []) :=
  (C8_generic_format cfgFoo stActive "foo" (some []) true "m1" rfl rfl rfl (by decide)
    (by decide)).2.1

/-- Claim C9: in the dispatch-bearing controller variant (modelled from the
spec; that variant is not among the provided source files) the displayed text
for a known tool name comes from a lookup table keyed by the tool name and
incorporates a value extracted from the tool's arguments -- a truncated
filename, command, query, or URL host -- while tools without a rule fall back
to the generic "{emoji} {label}..." format. -/
theorem C9_natural_description (cfg : PlaceholderConfig) (n : String) (a : Option Args)
    (h : naturalToolDescription n a = none) :
    richOnToolText cfg n a =
      (getToolDisplay cfg n).1 ++ " " ++ (getToolDisplay cfg n).2 ++ "..." ∧
    naturalToolDescription "read" (some [("path", JSValue.str "notes.txt")]) =
      some "● Read(notes.txt)" ∧
    naturalToolDescription "fetch" (some [("url", JSValue.str "https://example.com/a/b")]) =
      some "● Fetch(example.com)" := by
  refine ⟨by simp [richOnToolText, h], by rfl, by rfl⟩

/-- Claim C9 witness: a tool without a rule falls back to the generic format. -/
theorem C9_witness :
    richOnToolText cfgPlain "zzz" none =
      (getToolDisplay cfgPlain "zzz").1 ++ " " ++ (getToolDisplay cfgPlain "zzz").2 ++ "..." :=
  (C9_natural_description cfgPlain "zzz" none rfl).1

/-- Claim C10: for an active session, `onTool("reaction", args)` with the
message argument absent or not a string does not take the verbatim special
case: with no `toolDisplay` override for "reaction", a configured
tool-description generator, a successful edit and a display differing from
the candidate, the placeholder is edited to "🔧 reaction..." and a
tool-description generator task is launched for that call. -/
theorem C10_reaction_fallback (cfg : PlaceholderConfig) (st : CtrlState) (args : Option Args)
    (mid : String) (he : cfg.enabled = true) (ha : st.active = true)
    (hm : st.placeholderMessageId = some mid) (hne : mid ≠ "")
    (hmsg : ∀ s : String, getArg args "message" ≠ JSValue.str s)
    (hov : cfg.toolDisplay "reaction" = none)
    (hgen : cfg.hasGenerateToolDescription = true)
    (hd : st.currentDisplayText ≠ "🔧 reaction...") :
    onToolFn cfg st "reaction" args true =
      ({ st with currentToolText := "🔧 reaction...",
                 currentDisplayText := "🔧 reaction..." },
       [TEvent.edit mid "🔧 reaction..." true], [mid]) := by
  have hr : reactionMsg args = none := by
    unfold reactionMsg
    cases hg : getArg args "message" with
    | str s => exact absurd hg (hmsg s)
    | num n => rfl
    | boolean b => rfl
    | undef => rfl
  have hcond : ¬(st.active = false ∨ mid = "") := by
    rintro (h1 | h2)
    · simp [ha] at h1
    · exact hne h2
  have hdisp : getToolDisplay cfg "reaction" = ("🔧", "reaction") := by
    simp [getToolDisplay, hov]
  have happ : ("🔧" : String) ++ " " ++ "reaction" ++ "..." = "🔧 reaction..." := rfl
  have hne2 : ¬(("🔧 reaction..." : String) = st.currentDisplayText) := fun h => hd h.symm
  simp [onToolFn, he, hm, hcond, hr, hdisp, happ, hgen, editStep, hne2]

/-- Claim C10 witness: a non-string message argument takes the generic path
and launches a generator task. -/
theorem C10_witness :
    onToolFn cfgGen stActive "reaction" (some [("message", JSValue.boolean true)]) true =
      ({ stActive with currentToolText := "🔧 reaction...",
                       currentDisplayText := "🔧 reaction..." },
       [TEvent.edit "m1" "🔧 reaction..." true], ["m1"]) :=
  C10_reaction_fallback cfgGen stActive (some [("message", JSValue.boolean true)]) "m1"
    rfl rfl rfl (by decide) (fun s h => by simp [getArg] at h) rfl rfl (by decide)
